import Mathlib

/-!
Shallow embedding of the dbtools struct-to-SQL-row mapper (src/dbtools.go).

The Go program builds parameterized INSERT and SELECT statements from an
ordered set of column bindings.  The embedding below translates the library
code (type `TableMap` and its methods) into pure Lean functions; the
`*sql.DB` handle is an external driver handle and is not modeled.  Machine
strings become Lean `String`, the Go `sql.NullString` becomes `NullString`
and the `[]interface{}` value lists (which only ever hold strings) become
`List String`.
-/

namespace DbTools

/-- Mirror of Go `sql.NullString`: a text value plus a validity flag.  The
field `String` of the Go struct is written `str` here because `String` is a
type name in Lean; `Valid` is written `valid`. -/
structure NullString where
  str : String
  valid : Bool
deriving DecidableEq, Repr

/-- Go `type TableMapInput func() sql.NullString`: a zero-argument accessor
closure producing a nullable string, evaluated lazily at render time. -/
def TableMapInput : Type := Unit → NullString

/-- Go `type TableMapField struct { Val TableMapInput }`. -/
structure TableMapField where
  Val : TableMapInput

/-- Go `type TableMap struct`.  The `DB *sql.DB` handle is external and not
modeled.  The Go map `Fields map[string]TableMapField` is modeled as an
association list in which map assignment conses the new entry at the front
and lookup takes the first match, which gives Go's overwrite-on-assignment
(last write wins) lookup semantics. -/
structure TableMap where
  TableName : String
  Fields : List (String × TableMapField)
  fieldOrder : List String

/-- Go `NewTableMap`: fresh table map with an empty field map and order. -/
def NewTableMap (tableName : String) : TableMap :=
  ⟨tableName, [], []⟩

/-- Lookup `f.Fields[fieldName]` in the modeled map.  A missing key yields
the Go zero value of `TableMapField` (whose nil `Val` would panic if called;
this is unreachable for any map built through the API, since `StringCol`
inserts every name it appends to `fieldOrder`); it is modeled as an accessor
returning the zero `sql.NullString`. -/
def findField : List (String × TableMapField) → String → TableMapField
  | [], _ => ⟨fun _ => ⟨"", false⟩⟩
  | (k, v) :: rest, name => if k = name then v else findField rest name

/-- Value pushed onto `vals` in `getFieldsHelper`: `v.String` when `v.Valid`,
otherwise the literal text `NULL`. -/
def renderedValue (v : NullString) : String :=
  if v.valid then v.str else "NULL"

/-- Loop of `getFieldsHelper` over `f.fieldOrder`: for each field name, read
its accessor; skip the entry when the value is invalid and `inclnull` is
false; otherwise append the column name to `cols` and the rendered value to
`vals`.  The Go loop appends at the tail; the equivalent structural
recursion conses onto the result for the remaining names. -/
def collectFields (fields : List (String × TableMapField)) (inclnull : Bool) :
    List String → List String × List String
  | [] => ([], [])
  | fieldName :: rest =>
    let v := (findField fields fieldName).Val ()
    if !v.valid && !inclnull then
      collectFields fields inclnull rest
    else
      let r := collectFields fields inclnull rest
      (fieldName :: r.1, renderedValue v :: r.2)

/-- Go `getFieldsHelper`: returns `(cols, placeholders, vals)`; the
placeholder list holds one `?` per collected column. -/
def getFieldsHelper (f : TableMap) (inclnull : Bool) :
    List String × List String × List String :=
  let cv := collectFields f.Fields inclnull f.fieldOrder
  (cv.1, cv.1.map (fun _ => "?"), cv.2)

/-- Go `GetFields`: all columns, nulls included. -/
def GetFields (f : TableMap) : List String × List String × List String :=
  getFieldsHelper f true

/-- Go `GetFieldsWithoutNulls`: only columns whose value is present. -/
def GetFieldsWithoutNulls (f : TableMap) : List String × List String × List String :=
  getFieldsHelper f false

/-- Go `CreateSql`: renders
`INSERT INTO <table> (<cols>) VALUES (<placeholders>)` (with a trailing
newline, as in the `Sprintf` format string) and returns it with the
positional value list. -/
def CreateSql (f : TableMap) : String × List String :=
  let g := GetFields f
  ("INSERT INTO " ++ f.TableName ++ " (" ++ String.intercalate "," g.1 ++
      ") VALUES (" ++ String.intercalate "," g.2.1 ++ ")\n",
    g.2.2)

/-- Go `FindSql`: the select list is all columns (`GetFields`), the WHERE
conditions come from the non-null columns only, each condition being
`col + "=" + placeholders[i]`; the Go loop indexes `placeholders[i]` while
ranging over `cols`, and the two lists have equal length by construction of
`getFieldsHelper`, so the traversal is the zip of the two lists.  Both the
condition list and the column lists are joined with `strings.Join(_, ",")`
— note the separator of the WHERE conditions in the source is the comma. -/
def FindSql (f : TableMap) : String × List String :=
  let allcols := (GetFields f).1
  let g := GetFieldsWithoutNulls f
  let whereConds := (g.1.zip g.2.1).map (fun cp => cp.1 ++ "=" ++ cp.2)
  ("SELECT " ++ String.intercalate "," allcols ++ " FROM " ++ f.TableName ++
      " WHERE " ++ String.intercalate "," whereConds,
    g.2.2)

/-- Go `Print`: iterates the `Fields` map and formats each column as
`name : value` with `<null>` for an absent value.  Go map iteration order is
unspecified; the model iterates the association list.  The method reads the
receiver and never writes it. -/
def Print (f : TableMap) : List String :=
  f.Fields.map (fun p =>
    let v := p.2.Val ()
    p.1 ++ " : " ++ (if v.valid then v.str else "<null>"))

/-- Go methods take the receiver by pointer and could mutate it.  These
wrappers return the receiver state after the call; the bodies of `Print`,
`CreateSql`, `FindSql`, `GetFields` and `GetFieldsWithoutNulls` contain no
assignment to any field of `f`, so each returns the receiver unchanged. -/
def PrintM (f : TableMap) : List String × TableMap :=
  (Print f, f)

/-- Method-style `CreateSql`; see `PrintM`. -/
def CreateSqlM (f : TableMap) : (String × List String) × TableMap :=
  (CreateSql f, f)

/-- Method-style `FindSql`; see `PrintM`. -/
def FindSqlM (f : TableMap) : (String × List String) × TableMap :=
  (FindSql f, f)

/-- Method-style `GetFields`; see `PrintM`. -/
def GetFieldsM (f : TableMap) : (List String × List String × List String) × TableMap :=
  (GetFields f, f)

/-- Method-style `GetFieldsWithoutNulls`; see `PrintM`. -/
def GetFieldsWithoutNullsM (f : TableMap) :
    (List String × List String × List String) × TableMap :=
  (GetFieldsWithoutNulls f, f)

/-- Base-10 digit accumulation for `atoi`: consumes digit characters,
failing on the first non-digit. -/
def digitsToNat : List Char → Nat → Option Nat
  | [], acc => some acc
  | c :: rest, acc =>
    if c.isDigit then digitsToNat rest (acc * 10 + (c.toNat - 48)) else none

/-- Model of Go `strconv.Atoi` (equivalent to `ParseInt(s, 10, 64)` on a
64-bit platform): an optional leading sign followed by one or more base-10
digits, with the value required to fit a signed 64-bit integer; every other
input (empty string, bare sign, non-digit, out of range) returns an error,
modeled as `none`. -/
def atoi (s : String) : Option Int :=
  match s.data with
  | [] => none
  | c :: rest =>
    let signDigits : Bool × List Char :=
      if c = '-' then (true, rest)
      else if c = '+' then (false, rest)
      else (false, c :: rest)
    match signDigits.2 with
    | [] => none
    | ds =>
      match digitsToNat ds 0 with
      | none => none
      | some n =>
        if signDigits.1 then
          if n ≤ 2 ^ 63 then some (-(n : Int)) else none
        else
          if n < 2 ^ 63 then some (n : Int) else none

/-- Go `StringCol`: registers the accessor under `name` in the field map and
appends `name` to the field order.  Map assignment is modeled by consing the
new entry at the front (see `TableMap`). -/
def StringCol (f : TableMap) (name : String) (input : TableMapInput) : TableMap :=
  ⟨f.TableName, (name, ⟨input⟩) :: f.Fields, f.fieldOrder ++ [name]⟩

/-- The `inputChecked` closure built inside Go `IntCol`: read the underlying
accessor, run `strconv.Atoi` on its text and return the absent value on a
parse error; otherwise pass the value through when it is valid and return
the absent value when it is not. -/
def inputChecked (input : TableMapInput) : TableMapInput := fun _ =>
  let v := input ()
  match atoi v.str with
  | none => ⟨"", false⟩
  | some _ => if v.valid then v else ⟨"", false⟩

/-- Go `IntCol`: registers the checked accessor through `StringCol`. -/
def IntCol (f : TableMap) (name : String) (input : TableMapInput) : TableMap :=
  StringCol f name (inputChecked input)

/-- Go `FromString`: a nil pointer becomes the absent value, otherwise the
pointed-to string, valid. -/
def FromString (v : Option String) : TableMapInput := fun _ =>
  match v with
  | none => ⟨"", false⟩
  | some s => ⟨s, true⟩

/-- Go `FromInt`: a nil pointer becomes the absent value, otherwise the
decimal rendering of the pointed-to integer, valid. -/
def FromInt (v : Option Int) : TableMapInput := fun _ =>
  match v with
  | none => ⟨"", false⟩
  | some n => ⟨toString n, true⟩

/-- Caller-side helper: perform a sequence of bind calls (as `toTableMap`
does) left to right. -/
def bindAll (tm : TableMap) (bs : List (String × TableMapInput)) : TableMap :=
  bs.foldl (fun t b => StringCol t b.1 b.2) tm

/-- Model of the `sql.Rows` cursor produced by a successful `Query`: the
rows it delivers in order, then an optional iteration error.  Per the
`database/sql` contract, `Next` returns `true` once per delivered row and
then `false`; when iteration fails, `Next` returns `false` and the error is
retrievable via `rows.Err()`. -/
structure RowsCursor (Row E : Type) where
  rows : List Row
  iterErr : Option E

/-- Loop of Go `Find`: invoke `parser` on each row in order; the first
callback error returns immediately.  Returns the final result and the list
of rows the callback was invoked on. -/
def findIter {Row E : Type} (parser : Row → Option E) :
    List Row → Option E × List Row
  | [] => (none, [])
  | r :: rest =>
    match parser r with
    | some e => (some e, [r])
    | none =>
      let t := findIter parser rest
      (t.1, r :: t.2)

/-- Observable outcome of Go `Find` after a successful `Query`: the value it
returns (`none` for a nil error), the callback invocations in order, and
whether `rows.Close` ran before returning. -/
structure FindOutcome (Row E : Type) where
  result : Option E
  callbackCalls : List Row
  cursorClosed : Bool
deriving Repr

/-- Go `Find` after a successful `Query`: `defer rows.Close()` runs on every
return path, so `cursorClosed` is `true` both on the early error return and
on the final return.  The source never calls `rows.Err()`, so the returned
value does not depend on the cursor's `iterErr`: when the callback never
fails, the loop ends (`Next` returns `false`) and `Find` returns nil. -/
def Find {Row E : Type} (c : RowsCursor Row E) (parser : Row → Option E) :
    FindOutcome Row E :=
  let t := findIter parser c.rows
  ⟨t.1, t.2, true⟩

/-- Concrete binding set for the C1 evaluation: two present columns. -/
def tmC1 : TableMap :=
  StringCol
    (StringCol (NewTableMap "messages") "id" (fun _ => ⟨"1", true⟩))
    "title" (fun _ => ⟨"T", true⟩)

/-- Concrete binding set for the C5 witness: one absent column. -/
def tmC5 : TableMap :=
  StringCol (NewTableMap "messages") "id" (fun _ => ⟨"", false⟩)

/-- Concrete binding set for the C6 counterexample: the name `a` bound
twice, first to the value `1`, then to the value `2`. -/
def tmC6 : TableMap :=
  StringCol
    (StringCol (NewTableMap "t") "a" (fun _ => ⟨"1", true⟩))
    "a" (fun _ => ⟨"2", true⟩)

/-- Concrete binding set for the C8 witness: two present columns. -/
def tmC8 : TableMap :=
  StringCol
    (StringCol (NewTableMap "messages") "id" (fun _ => ⟨"3", true⟩))
    "title" (fun _ => ⟨"hello", true⟩)

/-- Concrete bind-call sequence for the C7 witness: two distinct names, one
present and one absent value. -/
def bsC7 : List (String × TableMapInput) :=
  [("id", fun _ => ⟨"1", true⟩), ("title", fun _ => ⟨"", false⟩)]

/-- Concrete binding set for the C2 witness: one present and one absent
column. -/
def tmC2 : TableMap :=
  StringCol
    (StringCol (NewTableMap "messages") "id" (fun _ => ⟨"1", true⟩))
    "title" (fun _ => ⟨"", false⟩)

/-- Concrete binding set for the C9 witness: a single bound column. -/
def tmC9w : TableMap :=
  StringCol (NewTableMap "messages") "id" (fun _ => ⟨"1", true⟩)

/-- Concrete binding set for the C10 witness: one present and one absent
column. -/
def tmC10 : TableMap :=
  StringCol
    (StringCol (NewTableMap "messages") "id" (fun _ => ⟨"9", true⟩))
    "body" (fun _ => ⟨"", false⟩)

/-- With `inclnull = true` nothing is skipped: the collected columns are the
field order itself and each value is the rendered value of its lookup. -/
theorem collectFields_true (fields : List (String × TableMapField))
    (order : List String) :
    collectFields fields true order =
      (order, order.map fun n => renderedValue ((findField fields n).Val ())) := by
  induction order with
  | nil => rfl
  | cons hd tl ih => simp [collectFields, ih]

/-- With `inclnull = false` the collected columns are the present ones, in
order, and each value comes from the valid branch (`v.String`). -/
theorem collectFields_false (fields : List (String × TableMapField))
    (order : List String) :
    collectFields fields false order =
      ((order.filter fun n => ((findField fields n).Val ()).valid),
        (order.filter fun n => ((findField fields n).Val ()).valid).map
          fun n => ((findField fields n).Val ()).str) := by
  induction order with
  | nil => rfl
  | cons hd tl ih =>
    by_cases h : ((findField fields hd).Val ()).valid = true
    · simp [collectFields, List.filter_cons, h, ih, renderedValue]
    · simp [collectFields, List.filter_cons, h, ih]

/-- C1: evaluation at a binding set with two present columns: `FindSql`
joins the two WHERE equality predicates with a comma, not with ` AND `, so
the claimed `SELECT ... WHERE id=? AND title=?` shape does not hold; the
select list and the value list are as claimed. -/
theorem C1_where_joined_by_comma :
    FindSql tmC1 = ("SELECT id,title FROM messages WHERE id=?,title=?", ["1", "T"]) := by
  rfl

/-- C2: `CreateSql` renders every bound column in field order, one `?`
placeholder per column, and a positional value list in which an absent
column contributes the literal text `NULL` and a present column its string
value. -/
theorem C2_insert_includes_nulls (tm : TableMap) :
    CreateSql tm =
      ("INSERT INTO " ++ tm.TableName ++ " (" ++
          String.intercalate "," tm.fieldOrder ++ ") VALUES (" ++
          String.intercalate "," (tm.fieldOrder.map fun _ => "?") ++ ")\n",
        tm.fieldOrder.map fun n => renderedValue ((findField tm.Fields n).Val ())) := by
  simp [CreateSql, GetFields, getFieldsHelper, collectFields_true]

/-- C3: evaluation at a cursor that delivers two rows and then fails with an
iteration error: a callback that never fails is invoked once per row in
order and the cursor is closed, but `Find` returns nil — the iteration
error is dropped because the source never checks `rows.Err()` — where the
claim requires the iteration error to be returned. -/
theorem C3_iteration_error_dropped :
    Find (⟨[0, 1], some "iteration error"⟩ : RowsCursor Nat String)
        (fun _ => none) =
      ⟨none, [0, 1], true⟩ := by
  rfl

/-- C9: the rendering and reading operations return the receiver unchanged,
and a bind call only adds: it conses one entry onto the field map and
appends the name to the field order, leaving the table name and every
existing entry in place. -/
theorem C9_append_only_frame (tm : TableMap) (name : String) (input : TableMapInput) :
    (StringCol tm name input).TableName = tm.TableName
    ∧ (StringCol tm name input).Fields = (name, ⟨input⟩) :: tm.Fields
    ∧ (StringCol tm name input).fieldOrder = tm.fieldOrder ++ [name]
    ∧ (IntCol tm name input).TableName = tm.TableName
    ∧ (IntCol tm name input).Fields = (name, ⟨inputChecked input⟩) :: tm.Fields
    ∧ (IntCol tm name input).fieldOrder = tm.fieldOrder ++ [name]
    ∧ (PrintM tm).2 = tm
    ∧ (CreateSqlM tm).2 = tm
    ∧ (FindSqlM tm).2 = tm
    ∧ (GetFieldsM tm).2 = tm
    ∧ (GetFieldsWithoutNullsM tm).2 = tm :=
  ⟨rfl, rfl, rfl, rfl, rfl, rfl, rfl, rfl, rfl, rfl, rfl⟩

/-- C10: `GetFieldsWithoutNulls` returns three lists of one common length,
every placeholder is `?`, and every value is the string of a present bound
column — the `NULL` branch is never taken when nulls are excluded. -/
theorem C10_without_nulls_shape (tm : TableMap) :
    (GetFieldsWithoutNulls tm).1.length = (GetFieldsWithoutNulls tm).2.1.length
    ∧ (GetFieldsWithoutNulls tm).2.2.length = (GetFieldsWithoutNulls tm).1.length
    ∧ (GetFieldsWithoutNulls tm).2.1 = (GetFieldsWithoutNulls tm).1.map (fun _ => "?")
    ∧ (GetFieldsWithoutNulls tm).2.2 =
        (tm.fieldOrder.filter fun n => ((findField tm.Fields n).Val ()).valid).map
          (fun n => ((findField tm.Fields n).Val ()).str)
    ∧ ∀ v ∈ (GetFieldsWithoutNulls tm).2.2, ∃ n ∈ tm.fieldOrder,
        ((findField tm.Fields n).Val ()).valid = true ∧
        ((findField tm.Fields n).Val ()).str = v := by
  have hcf := collectFields_false tm.Fields tm.fieldOrder
  refine ⟨?_, ?_, ?_, ?_, ?_⟩
  · simp [GetFieldsWithoutNulls, getFieldsHelper]
  · simp [GetFieldsWithoutNulls, getFieldsHelper, hcf]
  · rfl
  · simp [GetFieldsWithoutNulls, getFieldsHelper, hcf]
  · intro v hv
    simp only [GetFieldsWithoutNulls, getFieldsHelper, hcf] at hv
    obtain ⟨n, hn, rfl⟩ := List.mem_map.mp hv
    have hmem := List.mem_filter.mp hn
    exact ⟨n, hmem.1, hmem.2, rfl⟩

/-- Joining an empty list yields the empty string, as Go `strings.Join`
does on an empty (nil) slice. -/
theorem intercalate_nil_str (s : String) : String.intercalate s [] = "" := rfl

/-- C4: counterexample to the claim as stated: for an accessor whose result
is the absent value carrying the text `5`, the text parses as an integer,
yet the integer binder yields an absent value, and the value does not pass
through unchanged (its string is cleared). -/
theorem C4_counterexample :
    atoi "5" = some 5
    ∧ (inputChecked (fun _ => ⟨"5", false⟩) ()).valid = false
    ∧ inputChecked (fun _ => ⟨"5", false⟩) () ≠ ⟨"5", false⟩ := by
  refine ⟨by decide, rfl, by decide⟩

/-- C4 amended: the integer binder yields an absent value if and only if the
accessor's text fails integer parsing or the accessor's value is itself
absent; when the text parses and the value is present, it passes through
unchanged. -/
theorem C4_int_binder (v : NullString) :
    ((inputChecked (fun _ => v) ()).valid = false ↔
      (atoi v.str = none ∨ v.valid = false))
    ∧ (atoi v.str ≠ none → v.valid = true → inputChecked (fun _ => v) () = v) := by
  cases hp : atoi v.str with
  | none => simp [inputChecked, hp]
  | some n =>
    cases hv : v.valid with
    | false => simp [inputChecked, hp, hv]
    | true => simp [inputChecked, hp, hv]

/-- C4 witness: a present value with valid integer text passes through the
integer binder unchanged. -/
theorem C4_int_binder_witness :
    inputChecked (fun _ => (⟨"7", true⟩ : NullString)) () = ⟨"7", true⟩ :=
  (C4_int_binder ⟨"7", true⟩).2 (by decide) rfl

/-- C5: for a binding set where no column has a present value, `FindSql`
renders a statement that ends in `WHERE ` with an empty predicate list
after it, and returns an empty value list; no error is signalled (the
function is total and returns no error value). -/
theorem C5_empty_where (tm : TableMap)
    (h : ∀ n ∈ tm.fieldOrder, ((findField tm.Fields n).Val ()).valid = false) :
    (FindSql tm).1 =
      "SELECT " ++ String.intercalate "," tm.fieldOrder ++ " FROM " ++
        tm.TableName ++ " WHERE "
    ∧ (FindSql tm).2 = [] := by
  have hfil : (tm.fieldOrder.filter fun n => ((findField tm.Fields n).Val ()).valid) = [] :=
    List.filter_eq_nil_iff.mpr (fun a ha => by simp [h a ha])
  have hcf := collectFields_false tm.Fields tm.fieldOrder
  rw [hfil] at hcf
  constructor
  · simp [FindSql, GetFields, GetFieldsWithoutNulls, getFieldsHelper,
      collectFields_true, hcf, intercalate_nil_str]
  · simp [FindSql, GetFieldsWithoutNulls, getFieldsHelper, hcf]

/-- C5 witness: a binding set with a single absent column renders a SELECT
ending in `WHERE ` and an empty value list. -/
theorem C5_empty_where_witness :
    (FindSql tmC5).1 =
      "SELECT " ++ String.intercalate "," tmC5.fieldOrder ++ " FROM " ++
        tmC5.TableName ++ " WHERE "
    ∧ (FindSql tmC5).2 = [] :=
  C5_empty_where tmC5 (by decide)

/-- C6: counterexample to the claim as stated: after binding the name `a`
twice, the rendered insert statement contains column `a` twice, not exactly
once (though both value positions do use the later accessor's value). -/
theorem C6_counterexample :
    (CreateSql tmC6).1 = "INSERT INTO t (a,a) VALUES (?,?)\n"
    ∧ (GetFields tmC6).1.count "a" ≠ 1
    ∧ (CreateSql tmC6).2 = ["2", "2"] :=
  ⟨rfl, by decide, rfl⟩

/-- C6 amended: rebinding a name keeps last-write-wins lookup in the field
map, and every rendered occurrence uses the later accessor's value, but each
bind call appends to the field order, so a rendered statement contains the
rebound column once per bind call (here twice). -/
theorem C6_rebind_last_write_wins (tm : TableMap) (name : String)
    (i1 i2 : TableMapInput) (h : name ∉ tm.fieldOrder) :
    (GetFields (StringCol (StringCol tm name i1) name i2)).1 =
        tm.fieldOrder ++ [name, name]
    ∧ findField (StringCol (StringCol tm name i1) name i2).Fields name = ⟨i2⟩
    ∧ (GetFields (StringCol (StringCol tm name i1) name i2)).2.2 =
        (GetFields tm).2.2 ++ [renderedValue (i2 ()), renderedValue (i2 ())] := by
  have hfo : (StringCol (StringCol tm name i1) name i2).fieldOrder =
      tm.fieldOrder ++ [name, name] := by
    simp [StringCol]
  have hlook : findField (StringCol (StringCol tm name i1) name i2).Fields name = ⟨i2⟩ := by
    simp [StringCol, findField]
  have hlook2 : ∀ n, n ≠ name →
      findField (StringCol (StringCol tm name i1) name i2).Fields n =
        findField tm.Fields n := by
    intro n hn
    simp [StringCol, findField, Ne.symm hn]
  refine ⟨?_, hlook, ?_⟩
  · simp [GetFields, getFieldsHelper, collectFields_true, hfo]
  · simp only [GetFields, getFieldsHelper, collectFields_true, hfo]
    rw [List.map_append]
    congr 1
    · exact List.map_congr_left fun n hn => by
        rw [hlook2 n (fun hEq => h (hEq ▸ hn))]
    · simp [hlook]

/-- C6 witness: a fresh binding set with `a` bound twice renders `a` once
per bind, with the later accessor's value in both positions. -/
theorem C6_rebind_last_write_wins_witness :
    (GetFields tmC6).1 = (NewTableMap "t").fieldOrder ++ ["a", "a"]
    ∧ findField tmC6.Fields "a" = ⟨fun _ => ⟨"2", true⟩⟩
    ∧ (GetFields tmC6).2.2 =
        (GetFields (NewTableMap "t")).2.2 ++
          [renderedValue ((fun _ => (⟨"2", true⟩ : NullString)) ()),
            renderedValue ((fun _ => (⟨"2", true⟩ : NullString)) ())] :=
  C6_rebind_last_write_wins (NewTableMap "t") "a"
    (fun _ => ⟨"1", true⟩) (fun _ => ⟨"2", true⟩) (by decide)

/-- C8: when every bound column has a present value, `CreateSql` works from
a column list and placeholder list of equal length and returns a value list
of that same length. -/
theorem C8_all_present_lengths (tm : TableMap)
    (h : ∀ n ∈ tm.fieldOrder, ((findField tm.Fields n).Val ()).valid = true) :
    (GetFields tm).1.length = (GetFields tm).2.1.length
    ∧ (CreateSql tm).2.length = (GetFields tm).1.length := by
  refine ⟨by simp [GetFields, getFieldsHelper], ?_⟩
  simp [CreateSql, GetFields, getFieldsHelper, collectFields_true]

/-- C8 witness: a binding set with two present columns has matching column,
placeholder and value list lengths. -/
theorem C8_all_present_lengths_witness :
    (GetFields tmC8).1.length = (GetFields tmC8).2.1.length
    ∧ (CreateSql tmC8).2.length = (GetFields tmC8).1.length :=
  C8_all_present_lengths tmC8 (by decide)

/-- Folding bind calls leaves the table name unchanged. -/
theorem bindAll_TableName (bs : List (String × TableMapInput)) (tm : TableMap) :
    (bindAll tm bs).TableName = tm.TableName := by
  induction bs generalizing tm with
  | nil => rfl
  | cons b bs ih =>
    show (bindAll (StringCol tm b.1 b.2) bs).TableName = tm.TableName
    rw [ih]
    rfl

/-- Folding bind calls appends the bound names, in call order, to the field
order. -/
theorem bindAll_fieldOrder (bs : List (String × TableMapInput)) (tm : TableMap) :
    (bindAll tm bs).fieldOrder = tm.fieldOrder ++ bs.map Prod.fst := by
  induction bs generalizing tm with
  | nil => simp [bindAll]
  | cons b bs ih =>
    show (bindAll (StringCol tm b.1 b.2) bs).fieldOrder = _
    rw [ih]
    simp [StringCol]

/-- A name not bound by the fold keeps its previous lookup. -/
theorem bindAll_findField_not_mem (bs : List (String × TableMapInput))
    (tm : TableMap) (k : String) (hk : k ∉ bs.map Prod.fst) :
    findField (bindAll tm bs).Fields k = findField tm.Fields k := by
  induction bs generalizing tm with
  | nil => rfl
  | cons b bs ih =>
    simp only [List.map_cons, List.mem_cons, not_or] at hk
    show findField (bindAll (StringCol tm b.1 b.2) bs).Fields k = _
    rw [ih _ hk.2]
    simp [StringCol, findField, Ne.symm hk.1]

/-- When the bound names are distinct, the lookup of a bound name yields the
accessor it was bound to. -/
theorem bindAll_findField_mem (bs : List (String × TableMapInput))
    (tm : TableMap) (hnd : (bs.map Prod.fst).Nodup) (k : String)
    (i : TableMapInput) (hmem : (k, i) ∈ bs) :
    findField (bindAll tm bs).Fields k = ⟨i⟩ := by
  induction bs generalizing tm with
  | nil => cases hmem
  | cons b bs ih =>
    rw [List.map_cons, List.nodup_cons] at hnd
    rcases List.mem_cons.mp hmem with heq | hmem2
    · obtain rfl := heq.symm
      show findField (bindAll (StringCol tm k i) bs).Fields k = ⟨i⟩
      rw [bindAll_findField_not_mem bs _ k hnd.1]
      simp [StringCol, findField]
    · show findField (bindAll (StringCol tm b.1 b.2) bs).Fields k = ⟨i⟩
      exact ih _ hnd.2 hmem2

/-- C7: for a sequence of bind calls with distinct names, the column order
in both rendered statements equals the order of the bind calls: the insert
column list and the select list are the bound names in call order, and the
WHERE columns are the present ones in that same order. -/
theorem C7_insertion_order (tbl : String) (bs : List (String × TableMapInput))
    (h : (bs.map Prod.fst).Nodup) :
    (GetFields (bindAll (NewTableMap tbl) bs)).1 = bs.map Prod.fst
    ∧ (GetFieldsWithoutNulls (bindAll (NewTableMap tbl) bs)).1 =
        (bs.filter fun b => (b.2 ()).valid).map Prod.fst
    ∧ (CreateSql (bindAll (NewTableMap tbl) bs)).1 =
        "INSERT INTO " ++ tbl ++ " (" ++
          String.intercalate "," (bs.map Prod.fst) ++ ") VALUES (" ++
          String.intercalate "," ((bs.map Prod.fst).map fun _ => "?") ++ ")\n"
    ∧ (FindSql (bindAll (NewTableMap tbl) bs)).1 =
        "SELECT " ++ String.intercalate "," (bs.map Prod.fst) ++ " FROM " ++
          tbl ++ " WHERE " ++
          String.intercalate ","
            (((bs.filter fun b => (b.2 ()).valid).map Prod.fst).map
              fun n => n ++ "=" ++ "?") := by
  have hfo : (bindAll (NewTableMap tbl) bs).fieldOrder = bs.map Prod.fst := by
    rw [bindAll_fieldOrder]
    rfl
  have htn : (bindAll (NewTableMap tbl) bs).TableName = tbl :=
    bindAll_TableName bs (NewTableMap tbl)
  have hlookup : ∀ b ∈ bs,
      findField (bindAll (NewTableMap tbl) bs).Fields b.1 = ⟨b.2⟩ := by
    intro b hb
    obtain ⟨n, i⟩ := b
    exact bindAll_findField_mem bs (NewTableMap tbl) h n i hb
  have hfilter :
      ((bs.map Prod.fst).filter fun n =>
          ((findField (bindAll (NewTableMap tbl) bs).Fields n).Val ()).valid) =
        (bs.filter fun b => (b.2 ()).valid).map Prod.fst := by
    rw [List.filter_map]
    congr 1
    refine List.filter_congr fun b hb => ?_
    simp [Function.comp, hlookup b hb]
  refine ⟨?_, ?_, ?_, ?_⟩
  · simp [GetFields, getFieldsHelper, collectFields_true, hfo]
  · simp [GetFieldsWithoutNulls, getFieldsHelper, collectFields_false, hfo, hfilter]
  · simp [CreateSql, GetFields, getFieldsHelper, collectFields_true, hfo, htn]
  · simp only [FindSql, GetFields, GetFieldsWithoutNulls, getFieldsHelper,
      collectFields_true, collectFields_false, hfo, htn, hfilter,
      List.zip_map', List.map_map]
    rfl

/-- C7 witness: with `id` (present) and `title` (absent) bound in that
order, the insert and select column order is the bind order and the WHERE
columns are the present ones in that order. -/
theorem C7_insertion_order_witness :
    (GetFields (bindAll (NewTableMap "messages") bsC7)).1 = bsC7.map Prod.fst
    ∧ (GetFieldsWithoutNulls (bindAll (NewTableMap "messages") bsC7)).1 =
        (bsC7.filter fun b => (b.2 ()).valid).map Prod.fst
    ∧ (CreateSql (bindAll (NewTableMap "messages") bsC7)).1 =
        "INSERT INTO " ++ "messages" ++ " (" ++
          String.intercalate "," (bsC7.map Prod.fst) ++ ") VALUES (" ++
          String.intercalate "," ((bsC7.map Prod.fst).map fun _ => "?") ++ ")\n"
    ∧ (FindSql (bindAll (NewTableMap "messages") bsC7)).1 =
        "SELECT " ++ String.intercalate "," (bsC7.map Prod.fst) ++ " FROM " ++
          "messages" ++ " WHERE " ++
          String.intercalate ","
            (((bsC7.filter fun b => (b.2 ()).valid).map Prod.fst).map
              fun n => n ++ "=" ++ "?") :=
  C7_insertion_order "messages" bsC7 (by decide)

/-- C2 witness: at a binding set with a present `id` and an absent `title`,
the rendered insert lists both columns and the value list carries the
literal text `NULL` for the absent column. -/
theorem C2_insert_includes_nulls_witness :
    CreateSql tmC2 =
      ("INSERT INTO " ++ tmC2.TableName ++ " (" ++
          String.intercalate "," tmC2.fieldOrder ++ ") VALUES (" ++
          String.intercalate "," (tmC2.fieldOrder.map fun _ => "?") ++ ")\n",
        tmC2.fieldOrder.map fun n => renderedValue ((findField tmC2.Fields n).Val ())) :=
  C2_insert_includes_nulls tmC2

/-- C9 witness: the frame property evaluated at a concrete binding set and
bind call. -/
theorem C9_append_only_frame_witness :
    (StringCol tmC9w "a" (fun _ => ⟨"v", true⟩)).TableName = tmC9w.TableName
    ∧ (StringCol tmC9w "a" (fun _ => ⟨"v", true⟩)).Fields =
        ("a", ⟨fun _ => ⟨"v", true⟩⟩) :: tmC9w.Fields
    ∧ (StringCol tmC9w "a" (fun _ => ⟨"v", true⟩)).fieldOrder =
        tmC9w.fieldOrder ++ ["a"]
    ∧ (IntCol tmC9w "a" (fun _ => ⟨"v", true⟩)).TableName = tmC9w.TableName
    ∧ (IntCol tmC9w "a" (fun _ => ⟨"v", true⟩)).Fields =
        ("a", ⟨inputChecked (fun _ => ⟨"v", true⟩)⟩) :: tmC9w.Fields
    ∧ (IntCol tmC9w "a" (fun _ => ⟨"v", true⟩)).fieldOrder =
        tmC9w.fieldOrder ++ ["a"]
    ∧ (PrintM tmC9w).2 = tmC9w
    ∧ (CreateSqlM tmC9w).2 = tmC9w
    ∧ (FindSqlM tmC9w).2 = tmC9w
    ∧ (GetFieldsM tmC9w).2 = tmC9w
    ∧ (GetFieldsWithoutNullsM tmC9w).2 = tmC9w :=
  C9_append_only_frame tmC9w "a" (fun _ => ⟨"v", true⟩)

/-- C10 witness: shape of `GetFieldsWithoutNulls` at a concrete binding set
with one present and one absent column. -/
theorem C10_without_nulls_shape_witness :
    (GetFieldsWithoutNulls tmC10).1.length = (GetFieldsWithoutNulls tmC10).2.1.length
    ∧ (GetFieldsWithoutNulls tmC10).2.2.length = (GetFieldsWithoutNulls tmC10).1.length
    ∧ (GetFieldsWithoutNulls tmC10).2.1 = (GetFieldsWithoutNulls tmC10).1.map (fun _ => "?")
    ∧ (GetFieldsWithoutNulls tmC10).2.2 =
        (tmC10.fieldOrder.filter fun n => ((findField tmC10.Fields n).Val ()).valid).map
          (fun n => ((findField tmC10.Fields n).Val ()).str) :=
  ⟨(C10_without_nulls_shape tmC10).1, (C10_without_nulls_shape tmC10).2.1,
    (C10_without_nulls_shape tmC10).2.2.1, (C10_without_nulls_shape tmC10).2.2.2.1⟩

end DbTools
